import Mathlib

/-!
Verification of the orchestration core of the `devika` meta-agent
(`devika/agents/agent.py`) against its natural-language specification.

The orchestrator is shallowly embedded: roles and external collaborators
(planner, researcher, coder, action-selector, browser, search engine,
PDF generator, Netlify, keyword extractor, ...) are opaque oracles packed
into an `Env` structure, and the observable behaviour of one run is a
final `World` — the per-objective session state (`active`/`completed`
flags and the append-only message log), the process-wide contextual
keyword set, and an event trace recording every role invocation, message
append, flag mutation and collaborator side effect, in program order.
-/

namespace Devika

/-- Origin of a message in the per-objective log: messages added through
`ProjectManager.add_message_from_user` have origin `user`, messages added
through `add_message_from_devika` have origin `system`. -/
inductive Origin where
  | user
  | system
deriving DecidableEq, Repr

/-- One entry of the append-only message log. -/
structure Message where
  origin : Origin
  body : String
deriving DecidableEq, Repr

/-- Per-objective session state: the `active`/`completed` flags managed by
`AgentState` and the ordered message log managed by `ProjectManager`. -/
structure SessionState where
  active : Bool
  completed : Bool
  messages : List Message
deriving DecidableEq, Repr

/-- Observable actions of the orchestrator, recorded in program order.
`roleCall role info` records one invocation of a reasoning role; `info`
carries the claim-relevant argument (the runner's `os_system`, the
coder's `user_context`), and is `""` otherwise.  `branchEnter` marks the
point where `subsequent_execute` dispatches on the selected action kind
(between source line 167 and line 173).  `logWait` records one iteration
of the suspend-for-input poll loop (the `Waiting for user query...` log
line). -/
inductive Event where
  | setActive (b : Bool)
  | setCompleted (b : Bool)
  | msgDevika (body : String)
  | msgUser (body : String)
  | createProject (name : String)
  | roleCall (role : String) (info : String)
  | branchEnter (action : String)
  | logWait
  | webSearch (query : String)
  | browserGoTo (url : String)
  | browserScreenshot (projectName : String)
  | pdfRender (markdown : String)
  | deployCall
  | saveCode
  | startInteraction
deriving DecidableEq, Repr

/-- The whole observable state threaded through a run: the objective's
session, the process-wide contextual keyword set of the `Agent` instance,
and the trace of events so far. -/
structure World where
  session : SessionState
  keywords : Finset String
  trace : List Event
deriving DecidableEq

/-- Append one event to the trace. -/
def emit (w : World) (e : Event) : World :=
  { w with trace := w.trace ++ [e] }

/-- Embedding of `AgentState().set_agent_active(project_name, b)`. -/
def setActive (w : World) (b : Bool) : World :=
  { w with session := { w.session with active := b },
           trace := w.trace ++ [Event.setActive b] }

/-- Embedding of `AgentState().set_agent_completed(project_name, b)`. -/
def setCompleted (w : World) (b : Bool) : World :=
  { w with session := { w.session with completed := b },
           trace := w.trace ++ [Event.setCompleted b] }

/-- Embedding of `ProjectManager().add_message_from_devika(project_name, body)`:
appends a system-origin message to the log. Modelled from the spec:
`SessionState.append_system_message` (the `ProjectManager` source is not
part of the orchestration core under verification). -/
def addDevika (w : World) (body : String) : World :=
  { w with session := { w.session with
             messages := w.session.messages ++ [⟨Origin.system, body⟩] },
           trace := w.trace ++ [Event.msgDevika body] }

/-- Embedding of `ProjectManager().add_message_from_user(project_name, body)`:
appends a user-origin message to the log. Modelled from the spec:
`SessionState.append_user_message`. -/
def addUser (w : World) (body : String) : World :=
  { w with session := { w.session with
             messages := w.session.messages ++ [⟨Origin.user, body⟩] },
           trace := w.trace ++ [Event.msgUser body] }

/-- Messages appended to the objective's log by writers other than the
orchestrator (the interface layer delivering the human reply while the
poll loop sleeps).  Such appends are not orchestrator actions, so they
add nothing to the trace. -/
def deliverExternal (w : World) (ms : List Message) : World :=
  { w with session := { w.session with messages := w.session.messages ++ ms } }

/-- Python runtime errors the embedding can surface.  `unboundLocal name`
models the `UnboundLocalError` raised when a function-scoped local
variable is read before any assignment to it has executed. -/
inductive PyError where
  | unboundLocal (name : String)
deriving DecidableEq, Repr

/-- Reading a Python local variable: the slot holds `none` until the first
assignment executes; reading it then raises `UnboundLocalError`. -/
def readLocal (slot : Option String) (name : String) : Except PyError String :=
  match slot with
  | some v => Except.ok v
  | none => Except.error (PyError.unboundLocal name)

/-- Modelled from the spec: the textual rendering of one logged message used
by `ProjectManager.get_all_messages_formatted` (the conversation view the
roles consume; only its per-message, order-preserving nature matters to the
orchestration core). -/
def formatMessage (m : Message) : String :=
  match m.origin with
  | Origin.user => "User: " ++ m.body
  | Origin.system => "Devika: " ++ m.body

/-- Modelled from the spec: `SessionState.get_conversation` — the ordered
conversation view handed to roles, one formatted string per message. -/
def formatConversation (ms : List Message) : List String :=
  ms.map formatMessage

/-- Modelled from the spec: `ProjectManager.get_latest_message_from_user`
returns the most recent message of origin `user`, or none when no user
message exists (`SessionState.get_latest_user_message` in the interface
list). -/
def latest_message_from_user (ms : List Message) : Option Message :=
  (ms.filter (fun m => m.origin == Origin.user)).getLast?

/-- Modelled from the spec: `ProjectManager.validate_last_message_is_from_user`
holds exactly when the last message of the log has origin `user`
(`SessionState.is_latest_message_from_user` in the interface list). -/
def validate_last_message_is_from_user (ms : List Message) : Bool :=
  match ms.getLast? with
  | some m => m.origin == Origin.user
  | none => false

/-- Structured output of `planner.parse_response` (a mapping with keys
`project`, `reply`, `focus`, `plans`, `summary`); `plans` is kept opaque
as its serialized form. -/
structure PlannerResponse where
  project : String
  reply : String
  focus : String
  plans : String
  summary : String

/-- Structured output of `researcher.execute` (a mapping with keys
`queries` and `ask_user`). -/
structure ResearchResult where
  queries : List String
  askUser : String

/-- One item of the list returned by `decision.execute`: a function name,
the `user_prompt` entry of its argument mapping (the only argument any
branch of `make_decision` reads), and a user-facing reply. -/
structure DecisionItem where
  function : String
  userPrompt : String
  reply : String

/-- The opaque collaborators of the orchestration core: every reasoning
role and every external service, each reduced to the function of its
inputs that the orchestrator observes. -/
structure Env where
  plannerExecute : String → Option String → String
  plannerParse : String → PlannerResponse
  researcherExecute : String → Finset String → String → ResearchResult
  extractKeywords : String → List (String × Int)
  formatterExecute : String → String → String
  coderExecute : String → String → List (String × String) → String → String
  actionExecute : List String → String → String × String
  answerExecute : List String → String → String → String
  platformDescriptor : String
  getProjectPath : String → String
  netlifyDeployUrl : String → String
  featureExecute : List String → String → String → String → String
  patcherExecute : List String → String → List String → String → String → String → String
  reporterExecute : List String → String → String → String
  markdownToPdf : String → String → String
  decisionExecute : String → String → List DecisionItem
  searchFirstLink : String → String
  extractText : String → String
  codeToMarkdown : String → String
  jsonDumpsPlans : String → String

/-- Embedding of `project_name.replace(" ", "%20")`: for the
single-character pattern `" "`, Python's `str.replace` is exactly this
per-character substitution. -/
def replaceSpaces (s : String) : String :=
  String.join (s.data.map (fun c => if c = ' ' then "%20" else String.singleton c))

/-- The PDF download URL built identically at source lines 121-122 (the
`generate_pdf_document` branch of `make_decision`) and 231-232 (the
`report` branch of `subsequent_execute`): host and port are fixed and the
project name has every space replaced by `%20`
(`project_name.replace(" ", "%20")`). -/
def pdfDownloadUrl (projectName : String) : String :=
  "http://127.0.0.1:1337/api/download-project-pdf?project_name="
    ++ replaceSpaces projectName

/-- The message body announcing the generated PDF (source lines 123 and 233). -/
def pdfDownloadMessage (projectName : String) : String :=
  "I have generated the PDF document. You can download it from here: "
    ++ pdfDownloadUrl projectName

/-- The deploy confirmation appended by the `deploy` branch
(`json.dumps(response, indent=4)` of the two-field mapping at source
lines 195-199; the deploy URL is assumed to need no JSON escaping). -/
def deployResponseJson (deployUrl : String) : String :=
  "\x7b\n    \"message\": \"Done! I deployed your project on Netflify.\",\n    \"deploy_url\": \""
    ++ deployUrl ++ "\"\n\x7d"

/-- Loop body of `Agent.search_queries` (source lines 72-87): normalize the
query with `strip().lower()`, search, browse the first hit, screenshot,
and store the formatted extracted text under the normalized query key.
`results` is the Python dict, kept as an insertion-ordered association
list with overwrite-in-place semantics. -/
def dictSet (d : List (String × String)) (k v : String) : List (String × String) :=
  if d.any (fun p => p.1 == k) then
    d.map (fun p => if p.1 == k then (k, v) else p)
  else
    d ++ [(k, v)]

/-- Python `query.strip().lower()` (whitespace trim on both ends, then
lower-casing), written out over the character sequence so that it
evaluates by kernel reduction. -/
def stripLower (query : String) : String :=
  String.mk
    ((((query.data.dropWhile Char.isWhitespace).reverse.dropWhile
        Char.isWhitespace).reverse).map Char.toLower)

def searchQueriesLoop (env : Env) (projectName : String) :
    List String → List (String × String) → World → List (String × String) × World
  | [], results, w => (results, w)
  | query :: rest, results, w =>
      let q := stripLower query
      let w := emit w (Event.webSearch q)
      let resultUrl := env.searchFirstLink q
      let w := emit w (Event.browserGoTo resultUrl)
      let w := emit w (Event.browserScreenshot projectName)
      let resultContent := env.extractText resultUrl
      let formatted := env.formatterExecute resultContent projectName
      let w := emit w (Event.roleCall "formatter" "")
      searchQueriesLoop env projectName rest (dictSet results q formatted) w

/-- Embedding of `Agent.search_queries` (source lines 65-89). -/
def search_queries (env : Env) (queries : List String) (projectName : String)
    (w : World) : List (String × String) × World :=
  searchQueriesLoop env projectName queries [] w

/-- Embedding of `Agent.update_contextual_keywords` (source lines 91-100):
extract keywords from the sentence and add each term value (the first
component; the score is discarded) to the accumulated set; return the
updated set. -/
def update_contextual_keywords (env : Env) (w : World) (sentence : String) :
    Finset String × World :=
  let keywords := env.extractKeywords sentence
  let collected := keywords.foldl (fun s kw => insert kw.1 s) w.keywords
  (collected, { w with keywords := collected })

/-- One iteration's read-and-check of the suspend-for-input poll loop
(source lines 305-315): fetch the latest user-origin message and check
that the last log entry is from the user; when both succeed, record the
reply text, append the acknowledgement `"Thanks! 🙌"`, and stop waiting. -/
def pollIteration (w : World) : Option (String × World) :=
  match latest_message_from_user w.session.messages,
        validate_last_message_is_from_user w.session.messages with
  | some m, true => some (m.body, addDevika w "Thanks! 🙌")
  | _, _ => none

/-- The `while not got_user_query` poll loop (source lines 302-316).
`ext i` is the list of messages appended by concurrent writers before the
iteration-`i` read; `fuel` bounds how many poll iterations we unfold (the
source loop is unbounded; `none` means the wait is still pending after
`fuel` iterations). Each iteration logs `Waiting for user query...`. -/
def pollLoop (ext : Nat → List Message) :
    Nat → Nat → World → Option (String × World)
  | 0, _, _ => none
  | fuel + 1, i, w =>
      let w := emit w Event.logWait
      let w := deliverExternal w (ext i)
      match pollIteration w with
      | some r => some r
      | none => pollLoop ext fuel (i + 1) w

/-- Source lines 295-318: `ask_user_prompt` defaults to the sentinel
`"Nothing from the user."`; when the researcher's `ask_user` is non-empty
the question is appended, `active` is set to `false` and the poll loop
runs until a user reply is accepted; in every case `active` is set to
`true` afterwards (line 318 is outside the `if`). Returns the resolved
`ask_user_prompt` together with the updated world. -/
def waitForUserIfNeeded (ext : Nat → List Message) (fuel : Nat)
    (askUser : String) (w : World) : Option (String × World) :=
  if askUser != "" then
    let w := addDevika w askUser
    let w := setActive w false
    match pollLoop ext fuel 0 w with
    | none => none
    | some (reply, w) => some (reply, setActive w true)
  else
    some ("Nothing from the user.", setActive w true)

/-- The six-way `if`/`elif` dispatch of `subsequent_execute` (source lines
173-238).  `os_system` is a function-scoped Python local that no code
before the dispatch assigns; only the `run` branch assigns it (line 181),
so the slot enters every branch holding `none` and the `feature`/`bug`
branches read it through `readLocal`, surfacing `UnboundLocalError`
exactly where Python would raise it. An unrecognized action kind falls
through with no effect (there is no `else`). -/
def dispatchBranch (env : Env) (prompt projectName : String)
    (conversation : List String) (codeMarkdown : String) (action : String)
    (w : World) : Except PyError Unit × World :=
  let osSystem : Option String := none
  if action == "answer" then
    let response := env.answerExecute conversation codeMarkdown projectName
    let w := emit w (Event.roleCall "answer" "")
    let w := addDevika w response
    (Except.ok (), w)
  else if action == "run" then
    let osSystem := some env.platformDescriptor
    let _projectPath := env.getProjectPath projectName
    match readLocal osSystem "os_system" with
    | Except.error e => (Except.error e, w)
    | Except.ok os =>
        let w := emit w (Event.roleCall "runner" os)
        (Except.ok (), w)
  else if action == "deploy" then
    let deployUrl := env.netlifyDeployUrl projectName
    let w := emit w Event.deployCall
    let response := deployResponseJson deployUrl
    let w := addDevika w response
    (Except.ok (), w)
  else if action == "feature" then
    match readLocal osSystem "os_system" with
    | Except.error e => (Except.error e, w)
    | Except.ok os =>
        let _code := env.featureExecute conversation codeMarkdown os projectName
        let w := emit w (Event.roleCall "feature" os)
        let w := emit w Event.saveCode
        (Except.ok (), w)
  else if action == "bug" then
    match readLocal osSystem "os_system" with
    | Except.error e => (Except.error e, w)
    | Except.ok os =>
        let _code := env.patcherExecute conversation codeMarkdown [] prompt os projectName
        let w := emit w (Event.roleCall "patcher" os)
        let w := emit w Event.saveCode
        (Except.ok (), w)
  else if action == "report" then
    let markdown := env.reporterExecute conversation codeMarkdown projectName
    let w := emit w (Event.roleCall "reporter" "")
    let _outPdfFile := env.markdownToPdf markdown projectName
    let w := emit w (Event.pdfRender markdown)
    let response := pdfDownloadMessage projectName
    let w := emit w (Event.browserGoTo (pdfDownloadUrl projectName))
    let w := emit w (Event.browserScreenshot projectName)
    let w := addDevika w response
    (Except.ok (), w)
  else
    (Except.ok (), w)

/-- Tail of `subsequent_execute` (source lines 240-243): unless the
selected branch raised, clear `active`, set `completed` and return
`None`.  A `PyError` propagates out of the function, skipping the two
trailing flag updates, exactly as an uncaught Python exception would. -/
def finishSubsequent (branch : Except PyError Unit × World) :
    Except PyError (Option String) × World :=
  match branch with
  | (Except.error e, w) => (Except.error e, w)
  | (Except.ok _, w) => (Except.ok none, setCompleted (setActive w false) true)

/-- Embedding of `Agent.subsequent_execute` (source lines 156-243): mark
the session active, build the conversation view and the code rendering,
run the action-selector role, append its narration, dispatch on the
selected action kind, and finish through `finishSubsequent`. -/
def subsequent_execute (env : Env) (prompt projectName : String) (w : World) :
    Except PyError (Option String) × World :=
  let w := setActive w true
  let conversation := formatConversation w.session.messages
  let codeMarkdown := env.codeToMarkdown projectName
  let ra := env.actionExecute conversation projectName
  let w := emit w (Event.roleCall "action" "")
  let response := ra.1
  let action := ra.2
  let w := addDevika w response
  let w := emit w (Event.branchEnter action)
  finishSubsequent
    (dispatchBranch env prompt projectName conversation codeMarkdown action w)

/-- Embedding of `Agent.execute` (source lines 245-344), the primary
pipeline: plan, resolve the objective name, activate the session, append
narration/plans/summary, accumulate keywords from the focus, research,
announce the queries, possibly suspend for a clarifying answer
(`waitForUserIfNeeded`), fan out the searches, run the coder with the
resolved user context, persist the code, append the completion message
and clear the flags.  `ext`/`fuel` parameterize the poll loop; `none`
means the run is still suspended after `fuel` poll iterations. -/
def execute (env : Env) (ext : Nat → List Message) (fuel : Nat)
    (prompt : String) (projectNameFromUser : Option String) (w : World) :
    Option (Option String × World) :=
  let w := match projectNameFromUser with
    | some _ => addUser w prompt
    | none => w
  let plan := env.plannerExecute prompt projectNameFromUser
  let w := emit w (Event.roleCall "planner" "")
  let pr := env.plannerParse plan
  let projectName := match projectNameFromUser with
    | some pn => pn
    | none => pr.project
  let w := match projectNameFromUser with
    | some _ => w
    | none => addUser (emit w (Event.createProject pr.project)) prompt
  let w := setActive w true
  let w := addDevika w pr.reply
  let w := addDevika w (env.jsonDumpsPlans pr.plans)
  let w := addDevika w ("In summary: " ++ pr.summary)
  let w := (update_contextual_keywords env w pr.focus).2
  let research := env.researcherExecute plan w.keywords projectName
  let w := emit w (Event.roleCall "researcher" "")
  let queries := research.queries
  let queriesCombined := String.intercalate ", " queries
  let w := addDevika w ("I am browsing the web to research the following queries: "
    ++ queriesCombined ++ ". If I need anything, I will make sure to ask you.")
  match waitForUserIfNeeded ext fuel research.askUser w with
  | none => none
  | some (askUserPrompt, w) =>
      let sr := search_queries env queries projectName w
      let code := env.coderExecute plan askUserPrompt sr.1 projectName
      let w := sr.2
      let w := emit w (Event.roleCall "coder" askUserPrompt)
      let _ := code
      let w := emit w Event.saveCode
      let w := addDevika w "I have completed the coding task. You can now run the project."
      let w := setActive w false
      let w := setCompleted w true
      some (none, w)

/-- One item's branch of `make_decision` (source lines 115-152), entered
after the item's reply has been appended: `generate_pdf_document` runs
the reporter on the single-element prompt list, renders the PDF, browses
to the download URL, screenshots and appends the download message;
`browser_interaction` delegates to the interaction subsystem;
`coding_project` runs the planner → researcher → search → coder sequence
and persists the code; any other function name does nothing. -/
def decisionItemBranch (env : Env) (projectName : String) (item : DecisionItem)
    (w : World) : World :=
  if item.function == "generate_pdf_document" then
    let markdown := env.reporterExecute [item.userPrompt] "" projectName
    let w := emit w (Event.roleCall "reporter" "")
    let _outPdfFile := env.markdownToPdf markdown projectName
    let w := emit w (Event.pdfRender markdown)
    let response := pdfDownloadMessage projectName
    let w := emit w (Event.browserGoTo (pdfDownloadUrl projectName))
    let w := emit w (Event.browserScreenshot projectName)
    addDevika w response
  else if item.function == "browser_interaction" then
    emit w Event.startInteraction
  else if item.function == "coding_project" then
    let plan := env.plannerExecute item.userPrompt (some projectName)
    let w := emit w (Event.roleCall "planner" "")
    let _plannerResponse := env.plannerParse plan
    let research := env.researcherExecute plan w.keywords projectName
    let w := emit w (Event.roleCall "researcher" "")
    let sr := search_queries env research.queries projectName w
    let code := env.coderExecute plan research.askUser sr.1 projectName
    let w := sr.2
    let w := emit w (Event.roleCall "coder" research.askUser)
    let _ := code
    emit w Event.saveCode
  else
    w

/-- Embedding of `Agent.make_decision` (source lines 102-154): run the
decision role, then process each returned item strictly in order — append
its reply, then run its branch — and return `None`. -/
def make_decision (env : Env) (prompt projectName : String) (w : World) :
    Option String × World :=
  let decision := env.decisionExecute prompt projectName
  let w := emit w (Event.roleCall "decision" "")
  let w := decision.foldl (fun w item =>
      decisionItemBranch env projectName item (addDevika w item.reply)) w
  (none, w)

/-- Hexadecimal digit character for a value below 16 (upper case). -/
def hexDigit (n : Nat) : Char :=
  if n < 10 then Char.ofNat (48 + n) else Char.ofNat (55 + n)

/-- Percent-encoding of one character by its code point (adequate for the
ASCII range relevant to percent-encoding comparisons). -/
def percentEncodeChar (c : Char) : String :=
  String.mk ['%', hexDigit (c.toNat / 16 % 16), hexDigit (c.toNat % 16)]

/-- The unreserved characters of RFC 3986 section 2.3, which URL encoding
leaves untouched. -/
def isUnreservedChar (c : Char) : Bool :=
  c.isAlphanum || c == '-' || c == '.' || c == '_' || c == '~'

/-- Modelled from the spec: standard URL (percent) encoding of a string —
every character outside the unreserved set is replaced by its
percent-encoded form.  This follows the spec's words ("url-encoded
objective") and exists only to be compared with what the code builds. -/
def urlEncode (s : String) : String :=
  String.join (s.toList.map (fun c =>
    if isUnreservedChar c then String.singleton c else percentEncodeChar c))

/-- Modelled from the spec: the fixed-shape download URL of section 6,
`http://<host>:<port>/api/download-project-pdf?project_name=<url-encoded
objective>`, with the host and port the code uses. -/
def downloadUrlSpecShape (projectName : String) : String :=
  "http://127.0.0.1:1337/api/download-project-pdf?project_name="
    ++ urlEncode projectName

/-- Recognizer for role-invocation events. -/
def isRoleCall : Event → Bool
  | Event.roleCall _ _ => true
  | _ => false

/-- Recognizer for message-append events (either origin). -/
def isMessageAppend : Event → Bool
  | Event.msgDevika _ => true
  | Event.msgUser _ => true
  | _ => false

/-- Recognizer for the dispatch marker of `subsequent_execute`. -/
def isBranchEnter : Event → Bool
  | Event.branchEnter _ => true
  | _ => false

/-- The part of a run's trace that precedes the dispatch on the selected
action kind. -/
def preDispatchTrace (t : List Event) : List Event :=
  t.takeWhile (fun e => !(isBranchEnter e))

/-- The events `search_queries` appends for a given query list, in order. -/
def searchTrace (env : Env) (projectName : String) : List String → List Event
  | [] => []
  | query :: rest =>
      let q := stripLower query
      Event.webSearch q
        :: Event.browserGoTo (env.searchFirstLink q)
        :: Event.browserScreenshot projectName
        :: Event.roleCall "formatter" ""
        :: searchTrace env projectName rest

/-- The side-effect events of one `make_decision` item's branch, as a
function of the item and of the keyword set in force when it runs. -/
def itemBranchTrace (env : Env) (projectName : String) (kw : Finset String)
    (item : DecisionItem) : List Event :=
  if item.function == "generate_pdf_document" then
    [Event.roleCall "reporter" "",
     Event.pdfRender (env.reporterExecute [item.userPrompt] "" projectName),
     Event.browserGoTo (pdfDownloadUrl projectName),
     Event.browserScreenshot projectName,
     Event.msgDevika (pdfDownloadMessage projectName)]
  else if item.function == "browser_interaction" then
    [Event.startInteraction]
  else if item.function == "coding_project" then
    let plan := env.plannerExecute item.userPrompt (some projectName)
    let research := env.researcherExecute plan kw projectName
    Event.roleCall "planner" ""
      :: Event.roleCall "researcher" ""
      :: searchTrace env projectName research.queries
      ++ [Event.roleCall "coder" research.askUser, Event.saveCode]
  else
    []

/-- The events one `make_decision` item appends: its reply, then its
branch's side effects. -/
def itemTrace (env : Env) (projectName : String) (kw : Finset String)
    (item : DecisionItem) : List Event :=
  Event.msgDevika item.reply :: itemBranchTrace env projectName kw item

/-- A world whose log ends with a system message appended after a user
message (used to exercise the poll-loop rejection case). -/
def wUserSys : World :=
  ⟨⟨false, false, [⟨Origin.user, "x"⟩, ⟨Origin.system, "y"⟩]⟩, ∅, []⟩

/-- The world produced by a one-iteration accepted suspend-for-input wait
started from `w0` with question `"q?"` and the reply `"hi"` delivered at
the first poll read. -/
def wAccC3 : World :=
  ⟨⟨true, false,
     [⟨Origin.system, "q?"⟩, ⟨Origin.user, "hi"⟩, ⟨Origin.system, "Thanks! 🙌"⟩]⟩, ∅,
   [Event.msgDevika "q?", Event.setActive false, Event.logWait,
    Event.msgDevika "Thanks! 🙌", Event.setActive true]⟩

/-- A concrete environment used to exercise the theorems on closed runs:
every role returns a fixed small answer and the action selector returns
`kind`. -/
def envEx (kind : String) : Env where
  plannerExecute := fun _ _ => "plan"
  plannerParse := fun _ => ⟨"proj", "reply", "focus", "plans", "sum"⟩
  researcherExecute := fun _ _ _ => ⟨[], ""⟩
  extractKeywords := fun _ => []
  formatterExecute := fun text _ => "formatted " ++ text
  coderExecute := fun _ _ _ _ => "code"
  actionExecute := fun _ _ => ("narr", kind)
  answerExecute := fun _ _ _ => "ans"
  platformDescriptor := "TestOS"
  getProjectPath := fun _ => "/p"
  netlifyDeployUrl := fun _ => "https://d"
  featureExecute := fun _ _ _ _ => "fcode"
  patcherExecute := fun _ _ _ _ _ _ => "pcode"
  reporterExecute := fun _ _ _ => "md"
  markdownToPdf := fun _ _ => "out.pdf"
  decisionExecute := fun _ _ => []
  searchFirstLink := fun q => "url-" ++ q
  extractText := fun u => "text-" ++ u
  codeToMarkdown := fun _ => "cmd"
  jsonDumpsPlans := fun p => p

/-- `envEx` with a decision role returning one `generate_pdf_document` item. -/
def envDecision : Env :=
  { envEx "answer" with
      decisionExecute := fun _ _ => [⟨"generate_pdf_document", "X", "ok"⟩] }

/-- A fresh session: inactive, not completed, empty log. -/
def s0 : SessionState := ⟨false, false, []⟩

/-- A fresh world over `s0`. -/
def w0 : World := ⟨s0, ∅, []⟩

/-- An external schedule that delivers one user reply at every poll read. -/
def extReply : Nat → List Message := fun _ => [⟨Origin.user, "hi"⟩]

/-- An external schedule that never delivers anything. -/
def extNone : Nat → List Message := fun _ => []

/-! ## Helper lemmas -/

theorem foldl_insert_eq_union (l : List (String × Int)) (s : Finset String) :
    l.foldl (fun acc kw => insert kw.1 acc) s = s ∪ (l.map Prod.fst).toFinset := by
  induction l generalizing s with
  | nil => simp
  | cons a l ih =>
      simp only [List.foldl_cons, ih, List.map_cons, List.toFinset_cons]
      ext x
      simp only [Finset.mem_union, Finset.mem_insert, List.mem_toFinset]
      tauto

/-! ## C8: the contextual keyword set grows monotonically -/

/-- C8: for every sentence and every sequence of calls to
`update_contextual_keywords` within one process lifetime, the contextual
keyword set is monotonically non-decreasing — each call's result is a
superset of the previous set; each call unions in the extracted terms by
term value only (the score component is discarded) and returns the
updated set, which is also the set stored back into the agent. -/
theorem C8_keyword_set_monotone :
    (∀ (env : Env) (w : World) (sentence : String),
        w.keywords ⊆ (update_contextual_keywords env w sentence).1
        ∧ (update_contextual_keywords env w sentence).1 =
            w.keywords ∪ ((env.extractKeywords sentence).map Prod.fst).toFinset
        ∧ (update_contextual_keywords env w sentence).2.keywords =
            (update_contextual_keywords env w sentence).1)
    ∧ ∀ (env : Env) (w : World) (sentences : List String),
        w.keywords ⊆
          (sentences.foldl (fun w s => (update_contextual_keywords env w s).2) w).keywords := by
  have hunion : ∀ (env : Env) (w : World) (sentence : String),
      (update_contextual_keywords env w sentence).1 =
        w.keywords ∪ ((env.extractKeywords sentence).map Prod.fst).toFinset := by
    intro env w sentence
    simp [update_contextual_keywords, foldl_insert_eq_union]
  refine ⟨fun env w sentence => ⟨?_, hunion env w sentence, rfl⟩, ?_⟩
  · rw [hunion]
    exact Finset.subset_union_left
  · intro env w sentences
    induction sentences generalizing w with
    | nil => simp
    | cons a l ih =>
        refine Finset.Subset.trans ?_ (ih ((update_contextual_keywords env w a).2))
        have := hunion env w a
        simp only [update_contextual_keywords] at this ⊢
        rw [this]
        exact Finset.subset_union_left

/-! ## C5: research fan-out -/

/-- C5: `search_queries` on a two-query list whose entries normalize (strip
then lower-case) to `"alpha"` and `"beta"` returns a mapping with exactly
two entries, keyed by `"alpha"` and `"beta"`, each mapped to the formatted
text extracted from the first search hit for that normalized query. -/
theorem C5_search_fanout (env : Env) (q1 q2 projectName : String) (w : World)
    (h1 : stripLower q1 = "alpha") (h2 : stripLower q2 = "beta") :
    (search_queries env [q1, q2] projectName w).1 =
      [("alpha", env.formatterExecute (env.extractText (env.searchFirstLink "alpha")) projectName),
       ("beta", env.formatterExecute (env.extractText (env.searchFirstLink "beta")) projectName)] := by
  simp [search_queries, searchQueriesLoop, dictSet, h1, h2]

/-- Closed instance of `C5_search_fanout` at the raw queries `" Alpha "`
and `"BETA"`, checking that the original casing and whitespace do not leak
into the keys. -/
theorem C5_search_fanout_witness :
    (search_queries (envEx "answer") [" Alpha ", "BETA"] "proj" w0).1 =
      [("alpha", "formatted text-url-alpha"), ("beta", "formatted text-url-beta")] := by
  have h := C5_search_fanout (envEx "answer") " Alpha " "BETA" "proj" w0 (by decide) (by decide)
  simpa [envEx] using h

/-! ## C9: shape of the download-link message -/

theorem getLast?_append_two {α : Type} (l : List α) (a b : α) :
    (l ++ [a, b]).getLast? = some b := by
  rw [show l ++ [a, b] = (l ++ [a]) ++ [b] by simp, List.getLast?_concat]

/-- C9 fails as stated: for the objective name `"a&b"` the produced
download link carries the raw name (only spaces are `%20`-escaped), while
the url-encoded objective required by the claim is `"a%26b"`; the
download message appended by `make_decision` for that objective therefore
differs from the spec-shaped one. -/
theorem C9_counterexample :
    (make_decision envDecision "p" "a&b" w0).2.session.messages.getLast? =
        some ⟨Origin.system, pdfDownloadMessage "a&b"⟩
    ∧ pdfDownloadUrl "a&b" =
        "http://127.0.0.1:1337/api/download-project-pdf?project_name=a&b"
    ∧ downloadUrlSpecShape "a&b" =
        "http://127.0.0.1:1337/api/download-project-pdf?project_name=a%26b"
    ∧ pdfDownloadMessage "a&b" ≠
        "I have generated the PDF document. You can download it from here: "
          ++ downloadUrlSpecShape "a&b" := by
  refine ⟨by decide, by decide, by decide, by decide⟩

/-- C9 (amended): every download-link message produced — by the `report`
branch of `subsequent_execute` and by the `generate_pdf_document` branch
of `make_decision` — is the fixed-shape URL
`http://127.0.0.1:1337/api/download-project-pdf?project_name=<objective
with each space replaced by %20>`; only spaces are escaped, so the
parameter value coincides with the url-encoded objective exactly when the
name needs no other escaping. -/
theorem C9_amended :
    (∀ (env : Env) (prompt projectName : String) (s : SessionState) (kw : Finset String),
        (env.actionExecute (formatConversation s.messages) projectName).2 = "report" →
        (subsequent_execute env prompt projectName ⟨s, kw, []⟩).2.session.messages.getLast? =
          some ⟨Origin.system, pdfDownloadMessage projectName⟩)
    ∧ (∀ (env : Env) (projectName : String) (item : DecisionItem) (w : World),
        item.function = "generate_pdf_document" →
        (decisionItemBranch env projectName item w).session.messages.getLast? =
          some ⟨Origin.system, pdfDownloadMessage projectName⟩)
    ∧ ∀ projectName : String,
        pdfDownloadMessage projectName =
          "I have generated the PDF document. You can download it from here: http://127.0.0.1:1337/api/download-project-pdf?project_name="
            ++ replaceSpaces projectName := by
  refine ⟨?_, ?_, ?_⟩
  · intro env prompt projectName s kw ha
    simp [subsequent_execute, finishSubsequent, dispatchBranch, ha, addDevika, emit, setActive, setCompleted,
      getLast?_append_two, List.append_assoc]
  · intro env projectName item w hitem
    simp [decisionItemBranch, hitem, addDevika, emit, List.getLast?_concat]
  · intro projectName
    rw [pdfDownloadMessage, pdfDownloadUrl, ← String.append_assoc]
    congr 1

/-- Closed instance of `C9_amended`: the report branch for the objective
`"proj"` ends the log with the space-escaped download message. -/
theorem C9_amended_witness :
    (subsequent_execute (envEx "report") "p" "proj" ⟨s0, ∅, []⟩).2.session.messages.getLast? =
      some ⟨Origin.system, pdfDownloadMessage "proj"⟩ :=
  C9_amended.1 (envEx "report") "p" "proj" s0 ∅ rfl

/-! ## C1: the `os_system` reference-before-assignment hazard -/

/-- C1: in `subsequent_execute` the platform-descriptor local `os_system`
is assigned only inside the `run` branch; whenever the selected action
kind is `feature` or `bug` the branch reads it before any assignment has
occurred, so the run aborts with `UnboundLocalError` for `os_system`
before the feature/patcher role is ever invoked (the action selector
stays the only role invocation of the run), while the `run` branch
assigns the descriptor before use and hands it to the runner role. -/
theorem C1_platform_descriptor_hazard :
    (∀ (env : Env) (prompt projectName : String) (s : SessionState) (kw : Finset String),
        ((env.actionExecute (formatConversation s.messages) projectName).2 = "feature"
          ∨ (env.actionExecute (formatConversation s.messages) projectName).2 = "bug") →
        (subsequent_execute env prompt projectName ⟨s, kw, []⟩).1 =
            Except.error (PyError.unboundLocal "os_system")
          ∧ ((subsequent_execute env prompt projectName ⟨s, kw, []⟩).2.trace.countP
              (fun e => isRoleCall e)) = 1)
    ∧ ∀ (env : Env) (prompt projectName : String) (s : SessionState) (kw : Finset String),
        (env.actionExecute (formatConversation s.messages) projectName).2 = "run" →
        (subsequent_execute env prompt projectName ⟨s, kw, []⟩).1 = Except.ok none
          ∧ Event.roleCall "runner" env.platformDescriptor
              ∈ (subsequent_execute env prompt projectName ⟨s, kw, []⟩).2.trace := by
  constructor
  · rintro env prompt projectName s kw (ha | ha) <;>
      simp [subsequent_execute, finishSubsequent, dispatchBranch, ha, readLocal, addDevika, emit, setActive,
        setCompleted, isRoleCall, List.countP_cons]
  · intro env prompt projectName s kw ha
    simp [subsequent_execute, finishSubsequent, dispatchBranch, ha, readLocal, addDevika, emit, setActive,
      setCompleted]

/-- Closed instance of `C1_platform_descriptor_hazard`: with the action
selector answering `feature` the run aborts with the unbound-local error,
and with it answering `run` the runner receives the platform descriptor. -/
theorem C1_platform_descriptor_hazard_witness :
    (subsequent_execute (envEx "feature") "p" "proj" ⟨s0, ∅, []⟩).1 =
        Except.error (PyError.unboundLocal "os_system")
    ∧ (subsequent_execute (envEx "bug") "p" "proj" ⟨s0, ∅, []⟩).1 =
        Except.error (PyError.unboundLocal "os_system")
    ∧ (subsequent_execute (envEx "run") "p" "proj" ⟨s0, ∅, []⟩).1 = Except.ok none :=
  ⟨(C1_platform_descriptor_hazard.1 (envEx "feature") "p" "proj" s0 ∅ (Or.inl rfl)).1,
   (C1_platform_descriptor_hazard.1 (envEx "bug") "p" "proj" s0 ∅ (Or.inr rfl)).1,
   (C1_platform_descriptor_hazard.2 (envEx "run") "p" "proj" s0 ∅ rfl).1⟩

/-! ## C4: one role invocation and one narration before dispatch -/

/-- C4: for each of the six action kinds, the part of a
`subsequent_execute` run that precedes the dispatch on the selected
branch contains exactly one role invocation (the action selector) and
exactly one appended message (its narration). -/
theorem C4_one_narration_before_dispatch (env : Env) (prompt projectName : String)
    (s : SessionState) (kw : Finset String)
    (h : (env.actionExecute (formatConversation s.messages) projectName).2
        ∈ ["answer", "run", "deploy", "feature", "bug", "report"]) :
    (preDispatchTrace (subsequent_execute env prompt projectName ⟨s, kw, []⟩).2.trace).countP
        (fun e => isRoleCall e) = 1
    ∧ (preDispatchTrace (subsequent_execute env prompt projectName ⟨s, kw, []⟩).2.trace).countP
        (fun e => isMessageAppend e) = 1 := by
  simp only [List.mem_cons, List.not_mem_nil, or_false] at h
  rcases h with ha | ha | ha | ha | ha | ha <;>
    simp [subsequent_execute, finishSubsequent, dispatchBranch, ha, readLocal, addDevika, emit, setActive,
      setCompleted, preDispatchTrace, isBranchEnter, isRoleCall, isMessageAppend,
      List.takeWhile_cons, List.countP_cons]

/-- Closed instance of `C4_one_narration_before_dispatch` at the `deploy`
action kind. -/
theorem C4_one_narration_before_dispatch_witness :
    (preDispatchTrace (subsequent_execute (envEx "deploy") "p" "proj" ⟨s0, ∅, []⟩).2.trace).countP
        (fun e => isRoleCall e) = 1
    ∧ (preDispatchTrace (subsequent_execute (envEx "deploy") "p" "proj" ⟨s0, ∅, []⟩).2.trace).countP
        (fun e => isMessageAppend e) = 1 :=
  C4_one_narration_before_dispatch (envEx "deploy") "p" "proj" s0 ∅ (by decide)

/-! ## C10: unrecognized action kinds fall through -/

/-- C10: when the action selector returns a kind outside the six handled
ones, `subsequent_execute` raises no error and runs no handler branch —
the final world carries only the narration message and the exit flag
updates, `active` ends `false`, `completed` ends `true`, and the function
returns `None`. -/
theorem C10_unknown_action (env : Env) (prompt projectName : String) (s : SessionState)
    (kw : Finset String)
    (h : (env.actionExecute (formatConversation s.messages) projectName).2
        ∉ ["answer", "run", "deploy", "feature", "bug", "report"]) :
    subsequent_execute env prompt projectName ⟨s, kw, []⟩ =
      (Except.ok none,
        ⟨⟨false, true,
            s.messages ++
              [⟨Origin.system, (env.actionExecute (formatConversation s.messages) projectName).1⟩]⟩,
         kw,
         [Event.setActive true, Event.roleCall "action" "",
          Event.msgDevika (env.actionExecute (formatConversation s.messages) projectName).1,
          Event.branchEnter (env.actionExecute (formatConversation s.messages) projectName).2,
          Event.setActive false, Event.setCompleted true]⟩) := by
  simp only [List.mem_cons, List.not_mem_nil, or_false, not_or] at h
  obtain ⟨h1, h2, h3, h4, h5, h6⟩ := h
  simp [subsequent_execute, finishSubsequent, dispatchBranch, h1, h2, h3, h4, h5, h6, addDevika, emit,
    setActive, setCompleted]

/-- Closed instance of `C10_unknown_action` at the unhandled action kind
`"mystery"`. -/
theorem C10_unknown_action_witness :
    subsequent_execute (envEx "mystery") "p" "proj" ⟨s0, ∅, []⟩ =
      (Except.ok none,
        ⟨⟨false, true, [⟨Origin.system, "narr"⟩]⟩, ∅,
         [Event.setActive true, Event.roleCall "action" "", Event.msgDevika "narr",
          Event.branchEnter "mystery", Event.setActive false, Event.setCompleted true]⟩) := by
  have h := C10_unknown_action (envEx "mystery") "p" "proj" s0 ∅ (by decide)
  simpa [envEx, s0] using h

/-! ## C2: final-state invariant of completed runs -/

theorem finishSubsequent_ok (b : Except PyError Unit × World)
    (h : (finishSubsequent b).1 = Except.ok none) :
    (finishSubsequent b).2.session.active = false
    ∧ (finishSubsequent b).2.session.completed = true
    ∧ (finishSubsequent b).2.trace =
        b.2.trace ++ [Event.setActive false, Event.setCompleted true] := by
  rcases b with ⟨r, w⟩
  cases r with
  | error e => simp [finishSubsequent] at h
  | ok _ =>
      refine ⟨rfl, rfl, ?_⟩
      simp [finishSubsequent, setActive, setCompleted]

theorem dispatchBranch_trace_grows (env : Env) (prompt projectName : String)
    (conversation : List String) (codeMarkdown : String) (action : String) (w : World) :
    w.trace <+:
      (dispatchBranch env prompt projectName conversation codeMarkdown action w).2.trace := by
  unfold dispatchBranch
  split_ifs <;> simp [emit, addDevika, readLocal, List.prefix_append]

theorem searchQueriesLoop_world (env : Env) (projectName : String) :
    ∀ (qs : List String) (res : List (String × String)) (w : World),
      (searchQueriesLoop env projectName qs res w).2 =
        { w with trace := w.trace ++ searchTrace env projectName qs } := by
  intro qs
  induction qs with
  | nil => intro res w; simp [searchQueriesLoop, searchTrace]
  | cons q rest ih =>
      intro res w
      simp [searchQueriesLoop, searchTrace, ih, emit, List.append_assoc]

theorem waitFor_setActive_true_mem (ext : Nat → List Message) (fuel : Nat)
    (askUser : String) (w : World) (r : String) (wW : World)
    (h : waitForUserIfNeeded ext fuel askUser w = some (r, wW)) :
    Event.setActive true ∈ wW.trace := by
  unfold waitForUserIfNeeded at h
  split at h
  · rcases hp : pollLoop ext fuel 0 (setActive (addDevika w askUser) false)
      with - | ⟨reply, w'⟩
    · simp [hp] at h
    · simp only [hp, Option.some.injEq, Prod.mk.injEq] at h
      obtain ⟨-, h2⟩ := h
      rw [← h2]
      simp [setActive]
  · simp only [Option.some.injEq, Prod.mk.injEq] at h
    obtain ⟨-, h2⟩ := h
    rw [← h2]
    simp [setActive]

theorem tail_flags_trace (w : World) :
    (setCompleted (setActive w false) true).trace =
      w.trace ++ [Event.setActive false, Event.setCompleted true]
    ∧ (setCompleted (setActive w false) true).session.active = false
    ∧ (setCompleted (setActive w false) true).session.completed = true := by
  simp [setActive, setCompleted]

/-- C2: after a normally completed run of `subsequent_execute` or of
`execute`, the session satisfies `completed = true` and `active = false`
simultaneously, and `active` was set to `true` at an earlier point of the
same run (the final trace is some prefix containing a `setActive true`
event, followed by the closing `setActive false`, `setCompleted true`
pair). -/
theorem C2_completed_run_invariant :
    (∀ (env : Env) (prompt projectName : String) (s : SessionState) (kw : Finset String),
        (subsequent_execute env prompt projectName ⟨s, kw, []⟩).1 = Except.ok none →
        (subsequent_execute env prompt projectName ⟨s, kw, []⟩).2.session.active = false
        ∧ (subsequent_execute env prompt projectName ⟨s, kw, []⟩).2.session.completed = true
        ∧ ∃ t, (subsequent_execute env prompt projectName ⟨s, kw, []⟩).2.trace =
              t ++ [Event.setActive false, Event.setCompleted true]
            ∧ Event.setActive true ∈ t)
    ∧ ∀ (env : Env) (ext : Nat → List Message) (fuel : Nat) (prompt : String)
        (pn : Option String) (s : SessionState) (kw : Finset String),
        (execute env ext fuel prompt pn ⟨s, kw, []⟩).elim True (fun p =>
          p.2.session.active = false ∧ p.2.session.completed = true
          ∧ ∃ t, p.2.trace = t ++ [Event.setActive false, Event.setCompleted true]
              ∧ Event.setActive true ∈ t) := by
  constructor
  · intro env prompt projectName s kw h
    simp only [subsequent_execute] at h ⊢
    obtain ⟨h1, h2, ht⟩ := finishSubsequent_ok _ h
    refine ⟨h1, h2, _, ht, ?_⟩
    exact (dispatchBranch_trace_grows _ _ _ _ _ _ _).subset
      (by simp [emit, addDevika, setActive])
  · intro env ext fuel prompt pn s kw
    simp only [execute]
    split
    · simp
    · rename_i heq
      have hmem := waitFor_setActive_true_mem _ _ _ _ _ _ heq
      simp only [Option.elim]
      refine ⟨(tail_flags_trace _).2.1, (tail_flags_trace _).2.2, _,
        (tail_flags_trace _).1, ?_⟩
      simp [addDevika, emit, search_queries, searchQueriesLoop_world, hmem]

/-- Closed instance of `C2_completed_run_invariant` for both pipelines:
the `answer` action kind completes `subsequent_execute` normally, and the
no-question environment completes `execute` normally. -/
theorem C2_completed_run_invariant_witness :
    ((subsequent_execute (envEx "answer") "p" "proj" ⟨s0, ∅, []⟩).2.session.active = false
      ∧ (subsequent_execute (envEx "answer") "p" "proj" ⟨s0, ∅, []⟩).2.session.completed = true)
    ∧ (execute (envEx "answer") extNone 1 "p" none ⟨s0, ∅, []⟩).elim True (fun p =>
        p.2.session.active = false ∧ p.2.session.completed = true
        ∧ ∃ t, p.2.trace = t ++ [Event.setActive false, Event.setCompleted true]
            ∧ Event.setActive true ∈ t) :=
  ⟨⟨(C2_completed_run_invariant.1 (envEx "answer") "p" "proj" s0 ∅ rfl).1,
    (C2_completed_run_invariant.1 (envEx "answer") "p" "proj" s0 ∅ rfl).2.1⟩,
   C2_completed_run_invariant.2 (envEx "answer") extNone 1 "p" none s0 ∅⟩

/-! ## C3: the suspend-for-input wait -/

theorem validate_iff (ms : List Message) :
    validate_last_message_is_from_user ms = true ↔
      ms.getLast?.map Message.origin = some Origin.user := by
  unfold validate_last_message_is_from_user
  cases h : ms.getLast? with
  | none => simp
  | some m => simp

theorem latest_isSome_of_validate (ms : List Message)
    (h : validate_last_message_is_from_user ms = true) :
    (latest_message_from_user ms).isSome = true := by
  unfold validate_last_message_is_from_user at h
  cases hg : ms.getLast? with
  | none => rw [hg] at h; simp at h
  | some m =>
      rw [hg] at h
      have hm : m ∈ ms := by
        obtain ⟨hne2, hx⟩ := List.mem_getLast?_eq_getLast (l := ms) (x := m) hg
        rw [hx]
        exact List.getLast_mem hne2
      have hmem : m ∈ ms.filter (fun x => x.origin == Origin.user) :=
        List.mem_filter.mpr ⟨hm, h⟩
      unfold latest_message_from_user
      rw [List.getLast?_isSome]
      exact List.ne_nil_of_mem hmem

theorem pollIteration_isSome (w : World) :
    (pollIteration w).isSome =
      ((latest_message_from_user w.session.messages).isSome
        && validate_last_message_is_from_user w.session.messages) := by
  unfold pollIteration
  cases hl : latest_message_from_user w.session.messages <;>
    cases hv : validate_last_message_is_from_user w.session.messages <;> simp

theorem pollIteration_isSome_iff (w : World) :
    (pollIteration w).isSome = true ↔
      w.session.messages.getLast?.map Message.origin = some Origin.user := by
  rw [pollIteration_isSome]
  constructor
  · intro h
    exact (validate_iff _).mp (Bool.and_elim_right h)
  · intro h
    have hv := (validate_iff _).mpr h
    exact Bool.and_eq_true_iff.mpr ⟨latest_isSome_of_validate _ hv, hv⟩

theorem pollIteration_some (w : World) (r : String) (w' : World)
    (h : pollIteration w = some (r, w')) :
    w' = addDevika w "Thanks! 🙌" := by
  unfold pollIteration at h
  cases hl : latest_message_from_user w.session.messages <;>
    cases hv : validate_last_message_is_from_user w.session.messages <;>
      rw [hl, hv] at h <;> simp at h
  exact h.2.symm

theorem pollLoop_last_msg (ext : Nat → List Message) :
    ∀ (fuel i : Nat) (w : World) (r : String) (w' : World),
      pollLoop ext fuel i w = some (r, w') →
      w'.session.messages.getLast? = some ⟨Origin.system, "Thanks! 🙌"⟩ := by
  intro fuel
  induction fuel with
  | zero => intro i w r w' h; simp [pollLoop] at h
  | succ n ih =>
      intro i w r w' h
      rw [pollLoop] at h
      rcases hpi : pollIteration (deliverExternal (emit w Event.logWait) (ext i))
        with - | ⟨m, wa⟩
      · rw [hpi] at h
        exact ih (i + 1) _ r w' h
      · rw [hpi] at h
        simp only [Option.some.injEq, Prod.mk.injEq] at h
        obtain ⟨-, h2⟩ := h
        have := pollIteration_some _ _ _ hpi
        rw [← h2, this]
        simp [addDevika, List.getLast?_concat]

/-- C3: a poll iteration of the suspend-for-input wait accepts a pending
reply exactly when the most recent message of the objective's log has
origin `user`; in particular a system-origin message appended after the
user's message (and before any further user message) is never accepted;
and on acceptance the acknowledgement `"Thanks! 🙌"` is appended and
`active` is set back to `true`. -/
theorem C3_suspend_wait_acceptance :
    (∀ w : World, (pollIteration w).isSome = true ↔
        w.session.messages.getLast?.map Message.origin = some Origin.user)
    ∧ (∀ (w : World) (ms : List Message) (bu bs : String),
        w.session.messages = ms ++ [⟨Origin.user, bu⟩, ⟨Origin.system, bs⟩] →
        pollIteration w = none)
    ∧ ∀ (ext : Nat → List Message) (fuel : Nat) (askUser : String) (w : World)
        (reply : String) (wW : World),
        askUser ≠ "" →
        waitForUserIfNeeded ext fuel askUser w = some (reply, wW) →
        wW.session.active = true
        ∧ wW.session.messages.getLast? = some ⟨Origin.system, "Thanks! 🙌"⟩ := by
  refine ⟨pollIteration_isSome_iff, ?_, ?_⟩
  · intro w ms bu bs hm
    cases ho : pollIteration w with
    | none => rfl
    | some v =>
        have h := (pollIteration_isSome_iff w).mp (by simp [ho])
        rw [hm, getLast?_append_two] at h
        simp at h
  · intro ext fuel askUser w reply wW hne h
    unfold waitForUserIfNeeded at h
    split at h
    · rcases hp : pollLoop ext fuel 0 (setActive (addDevika w askUser) false)
        with - | ⟨r', w'⟩
      · simp [hp] at h
      · simp only [hp, Option.some.injEq, Prod.mk.injEq] at h
        obtain ⟨-, h2⟩ := h
        have hlast := pollLoop_last_msg ext fuel 0 _ r' w' hp
        rw [← h2]
        exact ⟨rfl, hlast⟩
    · rename_i hcond
      simp only [bne_iff_ne, ne_eq, not_not] at hcond
      exact absurd hcond hne

/-- Closed instance of `C3_suspend_wait_acceptance`: the poll iteration
rejects a log ending in a system message appended after the user's, and a
one-iteration accepted wait ends active with the acknowledgement as the
last message. -/
theorem C3_suspend_wait_acceptance_witness :
    pollIteration wUserSys = none
    ∧ wAccC3.session.active = true
    ∧ wAccC3.session.messages.getLast? = some ⟨Origin.system, "Thanks! 🙌"⟩ :=
  ⟨C3_suspend_wait_acceptance.2.1 wUserSys [] "x" "y" rfl,
   C3_suspend_wait_acceptance.2.2 extReply 1 "q?" w0 "hi" wAccC3
     (by decide) (by decide)⟩

/-! ## C6: no clarifying question means no suspension -/

theorem searchTrace_no_flags (env : Env) (projectName : String) :
    ∀ qs : List String,
      (searchTrace env projectName qs).countP (fun e => e == Event.setActive false) = 0
      ∧ Event.logWait ∉ searchTrace env projectName qs := by
  intro qs
  induction qs with
  | nil => simp [searchTrace]
  | cons q rest ih => simpa [searchTrace, List.countP_cons] using ih

theorem getLast?_cons_append {α : Type} (a : α) (l t : List α) (x : α)
    (h : t.getLast? = some x) : (a :: (l ++ t)).getLast? = some x := by
  rw [← List.cons_append, List.getLast?_append, h]
  rfl

theorem dropLast_getLast?_cons_cons_append {α : Type} (a b : α) (l t : List α) (x : α)
    (ht : t.dropLast.getLast? = some x) :
    (a :: b :: (l ++ t)).dropLast.getLast? = some x := by
  have hs : a :: b :: (l ++ t) = (a :: b :: l) ++ t := by simp
  rw [hs]
  rcases t with - | ⟨c, t'⟩
  · simp at ht
  · rw [List.dropLast_append_cons, List.getLast?_append, ht]
    rfl

/-- C6: when the researcher's clarifying question is the empty string,
`execute` completes without suspending — the poll loop is never entered
(no wait iteration is logged), `active` is never cleared mid-run (the
single `setActive false` of the trace is the penultimate event, directly
before the closing `setCompleted true`), and the coder role is invoked
with the sentinel user context `"Nothing from the user."`. -/
theorem C6_no_question_no_suspension (env : Env) (ext : Nat → List Message) (fuel : Nat)
    (prompt : String) (pn : Option String) (s : SessionState) (kw : Finset String)
    (h : (env.researcherExecute (env.plannerExecute prompt pn)
        ((env.extractKeywords (env.plannerParse (env.plannerExecute prompt pn)).focus).foldl
          (fun acc kwp => insert kwp.1 acc) kw)
        (match pn with
         | some pname => pname
         | none => (env.plannerParse (env.plannerExecute prompt pn)).project)).askUser = "") :
    (execute env ext fuel prompt pn ⟨s, kw, []⟩).isSome = true
    ∧ (execute env ext fuel prompt pn ⟨s, kw, []⟩).elim True (fun p =>
        Event.logWait ∉ p.2.trace
        ∧ p.2.trace.countP (fun e => e == Event.setActive false) = 1
        ∧ p.2.trace.getLast? = some (Event.setCompleted true)
        ∧ p.2.trace.dropLast.getLast? = some (Event.setActive false)
        ∧ Event.roleCall "coder" "Nothing from the user." ∈ p.2.trace) := by
  cases pn <;>
      simp_all [execute, update_contextual_keywords, waitForUserIfNeeded, search_queries,
        searchQueriesLoop_world, addUser, addDevika, setActive, setCompleted, emit,
        List.countP_append, List.countP_cons, searchTrace_no_flags,
        (searchTrace_no_flags env _ _).1, (searchTrace_no_flags env _ _).2] <;>
    exact ⟨getLast?_cons_append _ _ _ _ rfl,
      dropLast_getLast?_cons_cons_append _ _ _ _ _ rfl⟩

/-- Closed instance of `C6_no_question_no_suspension`: the
always-empty-question environment completes without suspension. -/
theorem C6_no_question_no_suspension_witness :
    (execute (envEx "answer") extNone 1 "p" none ⟨s0, ∅, []⟩).isSome = true :=
  (C6_no_question_no_suspension (envEx "answer") extNone 1 "p" none s0 ∅ rfl).1

/-! ## C7: the decision-dispatch flow -/

theorem decisionItemBranch_world (env : Env) (projectName : String) (item : DecisionItem)
    (w : World) :
    (decisionItemBranch env projectName item w).keywords = w.keywords
    ∧ (decisionItemBranch env projectName item w).trace =
        w.trace ++ itemBranchTrace env projectName w.keywords item := by
  unfold decisionItemBranch itemBranchTrace
  split_ifs <;>
    simp [emit, addDevika, search_queries, searchQueriesLoop_world, List.append_assoc]

theorem make_decision_foldl (env : Env) (projectName : String) :
    ∀ (items : List DecisionItem) (w : World),
      ((items.foldl (fun w item =>
          decisionItemBranch env projectName item (addDevika w item.reply)) w).trace
        = w.trace ++ items.flatMap (itemTrace env projectName w.keywords))
      ∧ (items.foldl (fun w item =>
          decisionItemBranch env projectName item (addDevika w item.reply)) w).keywords
        = w.keywords := by
  intro items
  induction items with
  | nil => intro w; simp
  | cons a rest ih =>
      intro w
      obtain ⟨hk, ht⟩ := decisionItemBranch_world env projectName a (addDevika w a.reply)
      obtain ⟨iht, ihk⟩ := ih (decisionItemBranch env projectName a (addDevika w a.reply))
      constructor
      · simp only [List.foldl_cons]
        rw [iht, hk, ht]
        simp [addDevika, itemTrace, List.append_assoc]
      · simp only [List.foldl_cons]
        rw [ihk, hk]
        simp [addDevika]

/-- C7: `make_decision` processes the decision items strictly in the order
returned by the decision role, appending each item's reply before that
item's branch side effects (the run's trace is the decision-role call
followed by the per-item blocks, in order); in particular a single
`generate_pdf_document` item yields exactly one reporter invocation, one
PDF render, one browse-navigation-plus-screenshot pair, and exactly two
appended messages — the reply, then the download-link response. -/
theorem C7_decision_flow (env : Env) (prompt projectName : String) (s : SessionState)
    (kw : Finset String) :
    ((make_decision env prompt projectName ⟨s, kw, []⟩).2.trace =
        Event.roleCall "decision" ""
          :: (env.decisionExecute prompt projectName).flatMap (itemTrace env projectName kw))
    ∧ ∀ userPrompt reply,
        env.decisionExecute prompt projectName = [⟨"generate_pdf_document", userPrompt, reply⟩] →
        (make_decision env prompt projectName ⟨s, kw, []⟩).2.trace =
            [Event.roleCall "decision" "", Event.msgDevika reply,
             Event.roleCall "reporter" "",
             Event.pdfRender (env.reporterExecute [userPrompt] "" projectName),
             Event.browserGoTo (pdfDownloadUrl projectName),
             Event.browserScreenshot projectName,
             Event.msgDevika (pdfDownloadMessage projectName)]
        ∧ (make_decision env prompt projectName ⟨s, kw, []⟩).2.session.messages =
            s.messages ++ [⟨Origin.system, reply⟩,
                           ⟨Origin.system, pdfDownloadMessage projectName⟩] := by
  constructor
  · have h := (make_decision_foldl env projectName (env.decisionExecute prompt projectName)
      (emit ⟨s, kw, []⟩ (Event.roleCall "decision" ""))).1
    simp only [make_decision]
    rw [h]
    simp [emit]
  · intro userPrompt reply hd
    constructor <;>
      simp [make_decision, hd, decisionItemBranch, addDevika, emit]

/-- Closed instance of `C7_decision_flow` for the single-item
`generate_pdf_document` decision. -/
theorem C7_decision_flow_witness :
    (make_decision envDecision "p" "proj" ⟨s0, ∅, []⟩).2.trace =
      [Event.roleCall "decision" "", Event.msgDevika "ok", Event.roleCall "reporter" "",
       Event.pdfRender "md", Event.browserGoTo (pdfDownloadUrl "proj"),
       Event.browserScreenshot "proj", Event.msgDevika (pdfDownloadMessage "proj")] := by
  have h := (C7_decision_flow envDecision "p" "proj" s0 ∅).2 "X" "ok" rfl
  simpa [envDecision, envEx] using h.1

end Devika
